import Mathlib

/-!
# Verification of the incremental vector-indexing subsystem

A shallow embedding, in Lean 4, of the ingestion / retrieval subsystem of the
`research_assistant` repository (`backend/services/vector_store.py`,
`backend/agents/internal_vector_agent.py`, `backend/agents/external_web_agent.py`,
`backend/app.py`, `backend/config.py`), together with theorems settling the
specification claims about it.

Modelling conventions:
* Python machine behaviour (file system contents, PDF parser outcomes, network
  search outcomes, embedding-service outcomes) is passed in explicitly as data
  or as function parameters, so every definition is executable.
* Fallible Python code (code that may raise) is modelled with `Except`;
  code wrapped in `try/except` in the source is total in the model.
* `hashlib.sha256(...).hexdigest()` is implemented bit-for-bit (FIPS 180-4)
  over the UTF-8 encoding of the input, so fingerprints are the real ones.
-/

/-! ## SHA-256 (FIPS 180-4), used by `file_fingerprint` -/

/-- Truncate to 32 bits. -/
def mask32 (x : Nat) : Nat := x % 4294967296

/-- Rotate a 32-bit word right by `n`. -/
def rotr32 (n x : Nat) : Nat := Nat.lor (x >>> n) (mask32 (x <<< (32 - n)))

/-- SHA-256 `Ch` function. -/
def shaCh (x y z : Nat) : Nat := Nat.xor (Nat.land x y) (Nat.land (Nat.xor x 4294967295) z)

/-- SHA-256 `Maj` function. -/
def shaMaj (x y z : Nat) : Nat :=
  Nat.xor (Nat.xor (Nat.land x y) (Nat.land x z)) (Nat.land y z)

/-- SHA-256 `Σ₀`. -/
def shaBigSigma0 (x : Nat) : Nat := Nat.xor (Nat.xor (rotr32 2 x) (rotr32 13 x)) (rotr32 22 x)

/-- SHA-256 `Σ₁`. -/
def shaBigSigma1 (x : Nat) : Nat := Nat.xor (Nat.xor (rotr32 6 x) (rotr32 11 x)) (rotr32 25 x)

/-- SHA-256 `σ₀`. -/
def shaSmallSigma0 (x : Nat) : Nat := Nat.xor (Nat.xor (rotr32 7 x) (rotr32 18 x)) (x >>> 3)

/-- SHA-256 `σ₁`. -/
def shaSmallSigma1 (x : Nat) : Nat := Nat.xor (Nat.xor (rotr32 17 x) (rotr32 19 x)) (x >>> 10)

/-- The 64 SHA-256 round constants. -/
def shaK : List Nat :=
  [1116352408, 1899447441, 3049323471, 3921009573, 961987163,
   1508970993, 2453635748, 2870763221, 3624381080, 310598401,
   607225278, 1426881987, 1925078388, 2162078206, 2614888103,
   3248222580, 3835390401, 4022224774, 264347078, 604807628,
   770255983, 1249150122, 1555081692, 1996064986, 2554220882,
   2821834349, 2952996808, 3210313671, 3336571891, 3584528711,
   113926993, 338241895, 666307205, 773529912, 1294757372,
   1396182291, 1695183700, 1986661051, 2177026350, 2456956037,
   2730485921, 2820302411, 3259730800, 3345764771, 3516065817,
   3600352804, 4094571909, 275423344, 430227734, 506948616,
   659060556, 883997877, 958139571, 1322822218, 1537002063,
   1747873779, 1955562222, 2024104815, 2227730452, 2361852424,
   2428436474, 2756734187, 3204031479, 3329325298]

/-- The eight SHA-256 working registers. -/
structure Hash8 where
  a : Nat
  b : Nat
  c : Nat
  d : Nat
  e : Nat
  f : Nat
  g : Nat
  h : Nat
deriving DecidableEq

/-- SHA-256 initial hash value. -/
def shaH0 : Hash8 :=
  ⟨1779033703, 3144134277, 1013904242, 2773480762, 1359893119, 2600822924, 528734635, 1541459225⟩

/-- Big-endian byte rendering of `x` in `n` bytes. -/
def toBytesBE (n x : Nat) : List Nat :=
  (List.range n).map (fun i => (x >>> (8 * (n - 1 - i))) % 256)

/-- UTF-8 encoding of one character (code point to bytes). -/
def utf8Char (c : Char) : List Nat :=
  let cp := c.toNat
  if cp < 0x80 then [cp]
  else if cp < 0x800 then
    [Nat.lor 0xC0 (cp >>> 6), Nat.lor 0x80 (Nat.land cp 0x3F)]
  else if cp < 0x10000 then
    [Nat.lor 0xE0 (cp >>> 12), Nat.lor 0x80 (Nat.land (cp >>> 6) 0x3F),
     Nat.lor 0x80 (Nat.land cp 0x3F)]
  else
    [Nat.lor 0xF0 (cp >>> 18), Nat.lor 0x80 (Nat.land (cp >>> 12) 0x3F),
     Nat.lor 0x80 (Nat.land (cp >>> 6) 0x3F), Nat.lor 0x80 (Nat.land cp 0x3F)]

/-- UTF-8 encoding of a string, as `payload.encode("utf-8")` produces. -/
def utf8Bytes (s : String) : List Nat := s.data.foldr (fun c acc => utf8Char c ++ acc) []

/-- SHA-256 message padding: append `0x80`, zeros, and the 64-bit bit length. -/
def shaPad (msg : List Nat) : List Nat :=
  let len := msg.length
  let padZeros := (119 - len % 64) % 64
  msg ++ (0x80 :: List.replicate padZeros 0) ++ toBytesBE 8 (len * 8)

/-- Group big-endian bytes into 32-bit words. -/
def bytesToWords : List Nat → List Nat
  | b0 :: b1 :: b2 :: b3 :: rest =>
    (b0 * 16777216 + b1 * 65536 + b2 * 256 + b3) :: bytesToWords rest
  | _ => []

/-- Extend the 16-word message schedule to 64 words (`fuel` = 48 remaining). -/
def extendSchedule : Nat → List Nat → List Nat
  | 0, w => w
  | fuel + 1, w =>
    let i := w.length
    let wi := mask32 (shaSmallSigma1 (w.getD (i - 2) 0) + w.getD (i - 7) 0 +
                      shaSmallSigma0 (w.getD (i - 15) 0) + w.getD (i - 16) 0)
    extendSchedule fuel (w ++ [wi])

/-- One SHA-256 compression round; `kw` pairs the round constant with the schedule word. -/
def shaRound (r : Hash8) (kw : Nat × Nat) : Hash8 :=
  let t1 := mask32 (r.h + shaBigSigma1 r.e + shaCh r.e r.f r.g + kw.1 + kw.2)
  let t2 := mask32 (shaBigSigma0 r.a + shaMaj r.a r.b r.c)
  ⟨mask32 (t1 + t2), r.a, r.b, r.c, mask32 (r.d + t1), r.e, r.f, r.g⟩

/-- Compress one 64-byte block into the running hash state. -/
def shaCompress (hs : Hash8) (block : List Nat) : Hash8 :=
  let w := extendSchedule 48 (bytesToWords block)
  let r := (shaK.zip w).foldl shaRound hs
  ⟨mask32 (hs.a + r.a), mask32 (hs.b + r.b), mask32 (hs.c + r.c), mask32 (hs.d + r.d),
   mask32 (hs.e + r.e), mask32 (hs.f + r.f), mask32 (hs.g + r.g), mask32 (hs.h + r.h)⟩

/-- Split a padded message into 64-byte blocks (`fuel` bounds the recursion). -/
def splitBlocks : Nat → List Nat → List (List Nat)
  | 0, _ => []
  | _, [] => []
  | fuel + 1, l => l.take 64 :: splitBlocks fuel (l.drop 64)

/-- Lower-case hex digit. -/
def hexDigit (n : Nat) : Char := if n < 10 then Char.ofNat (48 + n) else Char.ofNat (87 + n)

/-- Lower-case 8-digit hex rendering of a 32-bit word. -/
def toHex8 (x : Nat) : String :=
  String.mk ((List.range 8).map (fun i => hexDigit ((x >>> (4 * (7 - i))) % 16)))

/-- `hashlib.sha256(bytes).hexdigest()`. -/
def sha256HexBytes (msg : List Nat) : String :=
  let padded := shaPad msg
  let final := (splitBlocks (padded.length + 1) padded).foldl shaCompress shaH0
  toHex8 final.a ++ toHex8 final.b ++ toHex8 final.c ++ toHex8 final.d ++
  toHex8 final.e ++ toHex8 final.f ++ toHex8 final.g ++ toHex8 final.h

/-- `hashlib.sha256(s.encode("utf-8")).hexdigest()`. -/
def sha256Hex (s : String) : String := sha256HexBytes (utf8Bytes s)

/-! ## Path helpers (`os.path`) -/

/-- `os.path.join(root, fn)` with a relative `fn` (POSIX). -/
def joinPath (root fn : String) : String := root ++ "/" ++ fn

/-- The extension component of `os.path.splitext(p)`: the suffix of the basename
from its last dot, empty when the basename has no dot or only leading dots. -/
def splitextExt (p : String) : String :=
  let base := (p.data.reverse.takeWhile (fun c => c ≠ '/')).reverse
  let revBase := base.reverse
  let afterDot := revBase.takeWhile (fun c => c ≠ '.')
  if afterDot.length = revBase.length then ""
  else
    let stem := base.take (base.length - afterDot.length - 1)
    if stem.any (fun c => c ≠ '.') then String.mk ('.' :: afterDot.reverse) else ""

/-- `str.lower()` restricted to what reaches it here (ASCII extensions):
character-wise lower-casing. Defined over `data` so it kernel-reduces. -/
def strToLower (s : String) : String := String.mk (s.data.map Char.toLower)

/-- `str.strip()`: drop leading and trailing whitespace. Defined over `data`
so it kernel-reduces. -/
def strTrim (s : String) : String :=
  String.mk (((s.data.dropWhile Char.isWhitespace).reverse.dropWhile
    Char.isWhitespace).reverse)

/-! ## Configuration (`backend/config.py`) -/

/-- `SUPPORTED_EXTS = {".pdf", ".txt", ".md"}` (config.py line 35). -/
def SUPPORTED_EXTS : List String := [".pdf", ".txt", ".md"]

/-- The module-level names defined by `backend/config.py`. -/
def config_module_names : List String :=
  ["AZURE_OPENAI_API_KEY", "AZURE_OPENAI_ENDPOINT", "API_VERSION",
   "EMBEDDING_DEPLOYMENT", "GPT_DEPLOYMENT", "BASE_DIR", "FAQ_PDF_PATH",
   "SESSION_SECRET", "CHROMA_DIR", "CHROMA_COLLECTION", "DATA_DIR",
   "SUPPORTED_EXTS", "CHUNK_SIZE", "CHUNK_OVERLAP", "TOP_K"]

/-! ## Fingerprinting (`file_fingerprint`, vector_store.py lines 22-28) -/

/-- `file_fingerprint(path)` for a file that `os.stat` can see (every file the
directory walk yields): sha256 of `f"{path}|{stat.st_mtime_ns}|{stat.st_size}"`.
The `except` branch (stat failure) cannot fire for a walked file and is omitted. -/
def file_fingerprint (path : String) (mtimeNs size : Nat) : String :=
  sha256Hex (path ++ "|" ++ Nat.repr mtimeNs ++ "|" ++ Nat.repr size)

/-! ## Document loader (vector_store.py lines 30-67) -/

/-- One extracted text block: `{"page": int, "text": str}`. -/
structure Block where
  page : Nat
  text : String
deriving DecidableEq

/-- Outcome of handing a file to `pypdf.PdfReader` and iterating its pages:
either the constructor raises, or it yields a sequence of `extract_text()`
results (`none` models `extract_text()` returning `None`), after which an
exception may or may not be raised (`raisesAfter`). -/
inductive PdfRead where
  | openFail : PdfRead
  | pages (extracted : List (Option String)) (raisesAfter : Bool) : PdfRead
deriving DecidableEq

/-- `read_text_from_pdf` (lines 30-42): collects non-blank pages, numbering
from 1 over all yielded pages; the surrounding `try/except` swallows any
exception, returning whatever `out` holds at that point. -/
def read_text_from_pdf : PdfRead → List Block
  | .openFail => []
  | .pages extracted _ =>
    extracted.enum.filterMap (fun p =>
      let text := p.2.getD ""
      if strTrim text = "" then none else some ⟨p.1 + 1, text⟩)

/-- `read_text_from_txt` (lines 44-52): `r` is the outcome of opening and
reading the file as text (`errors="ignore"`); failures yield `[]`. -/
def read_text_from_txt (r : Except Unit String) : List Block :=
  match r with
  | .error _ => []
  | .ok text => if strTrim text = "" then [] else [⟨1, text⟩]

/-- `read_text_from_md` (lines 54-56): treated as plain text. -/
def read_text_from_md (r : Except Unit String) : List Block :=
  read_text_from_txt r

instance {ε α : Type _} [DecidableEq ε] [DecidableEq α] : DecidableEq (Except ε α) := fun a b => by
  cases a <;> cases b
  case error.error x y => exact decidable_of_iff (x = y) (by simp)
  case error.ok x y => exact isFalse (by simp)
  case ok.error x y => exact isFalse (by simp)
  case ok.ok x y => exact decidable_of_iff (x = y) (by simp)

/-- The machine-level behaviours of one file's bytes under the two parsers. -/
structure FileContent where
  pdf : PdfRead
  txt : Except Unit String
deriving DecidableEq

/-- `load_file_blocks` (lines 58-67): dispatch on the lower-cased extension. -/
def load_file_blocks (path : String) (c : FileContent) : List Block :=
  let ext := strToLower (splitextExt path)
  if ext = ".pdf" then read_text_from_pdf c.pdf
  else if ext = ".txt" then read_text_from_txt c.txt
  else if ext = ".md" then read_text_from_md c.txt
  else []

/-! ## Chunker (`chunk_blocks`, vector_store.py lines 69-95) -/

/-- The `file_meta` dict built at lines 171-176. -/
structure FileMeta where
  doc_id : String
  file_name : String
  file_path : String
  modified_at : String
deriving DecidableEq

/-- Per-chunk metadata dict (lines 85-93). -/
structure Metadata where
  doc_id : String
  file_name : String
  file_path : String
  page : Nat
  chunk_index : Nat
  modified_at : String
  preview : String
deriving DecidableEq

/-- A chunk: text plus metadata (lines 83-94). -/
structure Chunk where
  text : String
  metadata : Metadata
deriving DecidableEq

/-- `chunk_blocks(blocks, file_meta)` parameterised by the library splitter
`RecursiveCharacterTextSplitter.split_text` (an arbitrary deterministic
`String → List String`): blank-stripped parts are dropped, `chunk_index` is the
part's position in the splitter's output (blanks included), `preview` is the
first 200 characters. -/
def chunk_blocks (splitText : String → List String) (blocks : List Block)
    (file_meta : FileMeta) : List Chunk :=
  blocks.foldr (fun b acc =>
    ((splitText b.text).enum.filterMap (fun p =>
      if strTrim p.2 = "" then none
      else some
        { text := p.2
          metadata :=
            { doc_id := file_meta.doc_id
              file_name := file_meta.file_name
              file_path := file_meta.file_path
              page := b.page
              chunk_index := p.1
              modified_at := file_meta.modified_at
              preview := p.2.take 200 } })) ++ acc) []

/-! ## Ingestion record sidecar (vector_store.py lines 111-136) -/

/-- One value of the sidecar mapping (lines 205-210). -/
structure IndexEntry where
  fingerprint : String
  file_name : String
  modified_at : String
  chunks : Nat
deriving DecidableEq

/-- The sidecar mapping, file path → entry (a Python dict). -/
abbrev IndexMap := List (String × IndexEntry)

/-- Dict lookup `index.get(path)`. -/
def lookupIndex : IndexMap → String → Option IndexEntry
  | [], _ => none
  | kv :: tl, p => if kv.1 = p then some kv.2 else lookupIndex tl p

/-- Dict assignment `index[path] = entry`: replace the binding in place when
the key exists (Python dicts keep insertion order), else append it. -/
def insertIndex : IndexMap → String → IndexEntry → IndexMap
  | [], p, e => [(p, e)]
  | kv :: tl, p, e => if kv.1 = p then (p, e) :: tl else kv :: insertIndex tl p e

/-- The on-disk state of `{collection_name}_index.json`: absent, present but
unreadable, present but not valid JSON, or a valid mapping. -/
inductive IndexFile where
  | missing : IndexFile
  | unreadable : IndexFile
  | invalidJson : IndexFile
  | valid (m : IndexMap) : IndexFile
deriving DecidableEq

/-- `_load_index` (lines 123-131): `{}` when the file is missing, `{}` when
opening or JSON-parsing raises, otherwise the parsed mapping. Total: it never
raises. -/
def load_index : IndexFile → IndexMap
  | .missing => []
  | .unreadable => []
  | .invalidJson => []
  | .valid m => m

/-- `_save_index(mapping)` (lines 133-136): the file now holds the mapping. -/
def save_index (m : IndexMap) : IndexFile := .valid m

/-! ## Ingestion pipeline (`ChromaVectorStore.ingest_directory`, lines 138-220) -/

/-- Embedding-service failure (`get_embedding` raising, e.g. a network error). -/
inductive EmbErr where
  | fail : EmbErr
deriving DecidableEq

/-- One row of the Chroma collection: `(id, embedding, metadata, document)`. -/
structure VecEntry (E : Type) where
  id : String
  emb : E
  meta : Metadata
  doc : String
deriving DecidableEq

/-- `collection.add(ids=…, embeddings=…, metadatas=…, documents=…)` (line 201):
appends the zipped rows. -/
def collectionAdd {E : Type} (coll : List (VecEntry E)) (ids : List String)
    (embs : List E) (metas : List Metadata) (docs : List String) : List (VecEntry E) :=
  coll ++ (((ids.zip embs).zip metas).zip docs).map
    (fun r => ⟨r.1.1.1, r.1.1.2, r.1.2, r.2⟩)

/-- `_delete_by_doc_id(doc_id)` (lines 222-235): the body is a `try` whose only
effect-bearing statement is a dummy query; it ends in `pass` and the `except`
swallows anything, so the collection is left untouched. -/
def delete_by_doc_id {E : Type} (coll : List (VecEntry E)) (doc_id : String) :
    List (VecEntry E) :=
  coll

/-- The embedding loop at lines 198-200: `for t in texts:
embs.append(get_embedding(t))` — sequential, the first raising call aborts. -/
def embed_texts {E : Type} (emb : String → Except EmbErr E) :
    List String → Except EmbErr (List E)
  | [] => .ok []
  | t :: rest =>
    match emb t with
    | .error e => .error e
    | .ok v =>
      match embed_texts emb rest with
      | .error e => .error e
      | .ok vs => .ok (v :: vs)

/-- The chunk id built at line 194: `f"{fp}_{page}_{chunk_index}"`. -/
def chunkId (fp : String) (page chunk_index : Nat) : String :=
  fp ++ "_" ++ Nat.repr page ++ "_" ++ Nat.repr chunk_index

/-- `datetime.utcfromtimestamp(os.path.getmtime(path)).isoformat() + "Z"`
(line 170), abstracted as an injective deterministic rendering of the same
stat timestamp that feeds the fingerprint. -/
def isoUtc (mtimeNs : Nat) : String := Nat.repr mtimeNs ++ "Z"

/-- One file yielded by the `os.walk` at line 150: its directory, name,
stat data, and parser behaviours. `os.walk` file names contain no slash. -/
structure FsFile where
  root : String
  name : String
  mtimeNs : Nat
  size : Nat
  content : FileContent

/-- The mutable state threaded through one sweep: the summary counters
(lines 145-148), the sidecar mapping and the Chroma collection. -/
structure SweepAcc (E : Type) where
  added_docs : Nat
  updated_docs : Nat
  added_chunks : Nat
  skipped : Nat
  index : IndexMap
  collection : List (VecEntry E)

/-- The body of the per-file loop (lines 151-210). Exceptions from
`get_embedding` (modelled by `emb` returning `.error`) are NOT caught here —
there is no `try/except` in this loop — so they propagate. -/
def ingest_file {E : Type} (splitText : String → List String)
    (emb : String → Except EmbErr E) (acc : SweepAcc E) (f : FsFile) :
    Except EmbErr (SweepAcc E) :=
  let ext := strToLower (splitextExt f.name)
  if SUPPORTED_EXTS.contains ext = false then .ok acc
  else
    let path := joinPath f.root f.name
    let fp := file_fingerprint path f.mtimeNs f.size
    let old := lookupIndex acc.index path
    if (match old with | some e => e.fingerprint == fp | none => false) then
      .ok { acc with skipped := acc.skipped + 1 }
    else
      let blocks := load_file_blocks path f.content
      if blocks = [] then .ok { acc with skipped := acc.skipped + 1 }
      else
        let modified_at := isoUtc f.mtimeNs
        let file_meta : FileMeta := ⟨fp, f.name, path, modified_at⟩
        let chunks := chunk_blocks splitText blocks file_meta
        if chunks = [] then .ok { acc with skipped := acc.skipped + 1 }
        else
          let collection0 := match old with
            | some e => delete_by_doc_id acc.collection e.fingerprint
            | none => acc.collection
          let ids := chunks.map (fun ch => chunkId fp ch.metadata.page ch.metadata.chunk_index)
          let texts := chunks.map (fun ch => ch.text)
          let metas := chunks.map (fun ch => ch.metadata)
          match embed_texts emb texts with
          | .error e => .error e
          | .ok embs =>
            .ok { added_docs := acc.added_docs + (if old.isSome then 0 else 1)
                  updated_docs := acc.updated_docs + (if old.isSome then 1 else 0)
                  added_chunks := acc.added_chunks + chunks.length
                  skipped := acc.skipped
                  index := insertIndex acc.index path ⟨fp, f.name, modified_at, chunks.length⟩
                  collection := collectionAdd collection0 ids embs metas texts }

/-- The directory walk (line 150) over the discovered files, in walk order. -/
def ingest_loop {E : Type} (splitText : String → List String)
    (emb : String → Except EmbErr E) :
    List FsFile → SweepAcc E → Except EmbErr (SweepAcc E)
  | [], acc => .ok acc
  | f :: rest, acc =>
    match ingest_file splitText emb acc f with
    | .error e => .error e
    | .ok acc1 => ingest_loop splitText emb rest acc1

/-- The summary counters returned at lines 215-220. -/
structure IngestSummary where
  added_docs : Nat
  updated_docs : Nat
  added_chunks : Nat
  skipped : Nat
deriving DecidableEq

/-- The dict literal returned by `ingest_directory` (lines 215-220), key for key. -/
def summary_to_dict (s : IngestSummary) : List (String × Nat) :=
  [("added_docs", s.added_docs), ("updated_docs", s.updated_docs),
   ("added_chunks", s.added_chunks), ("skipped", s.skipped)]

/-- The persisted store: the sidecar index file and the Chroma collection. -/
structure StoreState (E : Type) where
  indexFile : IndexFile
  collection : List (VecEntry E)

/-- `ingest_directory(dir_path)` (lines 138-220): load the sidecar index,
walk the files, persist the index once, return the summary. An uncaught
per-file exception aborts the sweep before the index is saved. -/
def ingest_directory {E : Type} (splitText : String → List String)
    (emb : String → Except EmbErr E) (files : List FsFile) (st : StoreState E) :
    Except EmbErr (IngestSummary × StoreState E) :=
  match ingest_loop splitText emb files
      ⟨0, 0, 0, 0, load_index st.indexFile, st.collection⟩ with
  | .error e => .error e
  | .ok acc =>
    .ok (⟨acc.added_docs, acc.updated_docs, acc.added_chunks, acc.skipped⟩,
         ⟨save_index acc.index, acc.collection⟩)

/-! ### Derived views of one walked file (abbreviations of the source expressions) -/

/-- `os.path.join(root, fn)` for a walked file. -/
def pathOf (f : FsFile) : String := joinPath f.root f.name

/-- The lower-cased extension checked at lines 152-153. -/
def extOf (f : FsFile) : String := strToLower (splitextExt f.name)

/-- Whether the file passes the `SUPPORTED_EXTS` gate at line 153. -/
def supportedF (f : FsFile) : Bool := SUPPORTED_EXTS.contains (extOf f)

/-- The fingerprint computed at line 156. -/
def fpOf (f : FsFile) : String := file_fingerprint (pathOf f) f.mtimeNs f.size

/-- The blocks loaded at line 165. -/
def blocksOf (f : FsFile) : List Block := load_file_blocks (pathOf f) f.content

/-- The `file_meta` dict of lines 171-176. -/
def metaOf (f : FsFile) : FileMeta := ⟨fpOf f, f.name, pathOf f, isoUtc f.mtimeNs⟩

/-- The chunks computed at line 179. -/
def chunksOf (splitText : String → List String) (f : FsFile) : List Chunk :=
  chunk_blocks splitText (blocksOf f) (metaOf f)

/-- Number of walked files that pass the extension gate. -/
def countSupported (files : List FsFile) : Nat :=
  (files.filter (fun f => supportedF f)).length

/-! ## Retrieval (`similarity_search` lines 237-248, `InternalVectorAgent.retrieve`) -/

/-- One element of the list `similarity_search` returns (lines 243-247):
a dict with the keys `text` and `metadata` — and no similarity score. -/
structure SearchResult where
  text : String
  metadata : Metadata
deriving DecidableEq

/-- The dict literal appended at lines 244-247, key for key. -/
def search_result_to_dict (r : SearchResult) : List (String × (String ⊕ Metadata)) :=
  [("text", Sum.inl r.text), ("metadata", Sum.inr r.metadata)]

/-- `similarity_search(query, top_k=3)` (lines 237-248). `collectionQuery e n`
models `collection.query(query_embeddings=[e], n_results=n)`, returning the
`documents` and `metadatas` rows; note the code passes `n_results=top_k`
directly, applies no similarity filter, and zips text with metadata only. -/
def similarity_search {E : Type} (emb : String → Except EmbErr E)
    (collectionQuery : E → Nat → List String × List Metadata)
    (query : String) (top_k : Nat) : Except EmbErr (List SearchResult) :=
  match emb query with
  | .error e => .error e
  | .ok e =>
    let res := collectionQuery e top_k
    .ok ((res.1.zip res.2).map (fun p => ⟨p.1, p.2⟩))

/-- The parameter names of `ChromaVectorStore.similarity_search`
(vector_store.py line 237: `def similarity_search(self, query, top_k=3)`). -/
def similarity_search_param_names : List String := ["query", "top_k"]

/-- The keyword-argument names used at the call site
`self.store.similarity_search(query, top_k=top_k, min_score=self.threshold)`
(internal_vector_agent.py line 12; `query` is passed positionally). -/
def retrieve_call_kwarg_names : List String := ["top_k", "min_score"]

/-- Errors a retrieval call can surface: CPython's `TypeError` for a keyword
argument the callee does not accept, or a propagated embedding failure. -/
inductive PyErr where
  | typeErrorUnexpectedKwarg : PyErr
  | emb (e : EmbErr) : PyErr
deriving DecidableEq

/-- `InternalVectorAgent.retrieve(query, top_k)` (internal_vector_agent.py
lines 11-17), with CPython call semantics for the bound method: the call binds
each keyword argument against the callee's parameter list and raises
`TypeError` when one (here `min_score`) does not appear there; only if all
bind does the body of `similarity_search` run. `threshold` is
`self.threshold`, whose value the broken call never consumes. -/
def retrieve {E : Type} (emb : String → Except EmbErr E)
    (collectionQuery : E → Nat → List String × List Metadata)
    (query : String) (top_k : Nat) (threshold : Int) :
    Except PyErr (List SearchResult) :=
  if retrieve_call_kwarg_names.all
      (fun k => similarity_search_param_names.contains k) then
    match similarity_search emb collectionQuery query top_k with
    | .error e => .error (.emb e)
    | .ok l => .ok l
  else .error .typeErrorUnexpectedKwarg

/-- The names `internal_vector_agent.py` line 3 imports from `backend.config`. -/
def internal_vector_agent_config_imports : List String := ["TOP_K", "MIN_SIMILARITY_THRESHOLD"]

/-! ## Web search (`external_web_agent.web_search`, lines 4-48) -/

/-- One raw item yielded by `DDGS().text(...)` (after `.get(...,"")`). -/
structure DDGItem where
  title : String
  body : String
  href : String
deriving DecidableEq

/-- One element of the list `web_search` returns. -/
structure WebResult where
  title : String
  snippet : String
  url : String
deriving DecidableEq

/-- The hard-coded `fallback_sources` list (lines 34-45), built from the query. -/
def fallback_sources (query : String) : List WebResult :=
  [⟨"General information about " ++ query,
    "Comprehensive overview and analysis of " ++ query ++ " from various perspectives.",
    "https://example.com/search?q=" ++ query.replace " " "+"⟩,
   ⟨"Latest trends in " ++ query,
    "Current developments and emerging trends related to " ++ query ++ ".",
    "https://example.org/trends/" ++ query.replace " " "-"⟩]

/-- `web_search(query, max_results=6)` (lines 4-48). `searchOutcome` models the
`DDGS().text(...)` call and the iteration over it: `.ok items` when it yields
`items` without raising, `.error` when anything in the `try` block raises.
On success only items with a non-empty stripped title and href are kept; on
failure the `except` branch replaces `results` with `fallback_sources[:max_results]`. -/
def web_search (query : String) (max_results : Nat)
    (searchOutcome : Except Unit (List DDGItem)) : List WebResult :=
  match searchOutcome with
  | .ok items =>
    items.foldl (fun results item =>
      let title := strTrim item.title
      let body := strTrim item.body
      let href := strTrim item.href
      if href ≠ "" ∧ title ≠ "" then results ++ [⟨title, body, href⟩] else results) []
  | .error _ => (fallback_sources query).take max_results

/-! ## Plan execution (`app.py /execute/`, lines 75-130) -/

/-- One entry of a plan's `steps` list; `query` is `step.get('query')`. -/
structure PlanStep where
  query : Option String

/-- The queries the `/execute/` loop issues to the agents: the code takes
`plan['steps'][:6]` (app.py line 93) and, for each step, strips
`step.get('query') or ""` and skips it when empty (lines 96-98). -/
def execute_plan_queries (steps : List PlanStep) : List String :=
  (steps.take 6).foldl (fun acc step =>
    let q := strTrim (step.query.getD "")
    if q = "" then acc else acc ++ [q]) []

/-! ## Small helper lemmas -/

/-- `String.data` distributes over append. -/
theorem str_data_append (a b : String) : (a ++ b).data = a.data ++ b.data := by
  cases a; cases b; rfl

/-- `step.get('query')` stripped, `none` when empty (the `continue` at line 98). -/
def step_query (step : PlanStep) : Option String :=
  let q := strTrim (step.query.getD "")
  if q = "" then none else some q

theorem execute_plan_queries_foldl (l : List PlanStep) (acc : List String) :
    l.foldl (fun acc step =>
      let q := strTrim (step.query.getD "")
      if q = "" then acc else acc ++ [q]) acc = acc ++ l.filterMap step_query := by
  induction l generalizing acc with
  | nil => simp
  | cons step tl ih =>
    by_cases h : strTrim (step.query.getD "") = "" <;>
      simp [List.foldl_cons, List.filterMap_cons, step_query, h, ih]

/-! ## Claim C10 -/

/-- C10: the `/execute/` endpoint processes at most the first 6 entries of the
plan's `steps` list (`plan['steps'][:6]`, app.py line 93); steps beyond the
sixth contribute nothing, whatever the plan's length. -/
theorem execute_plan_truncates_to_six (steps extra : List PlanStep)
    (h : 6 ≤ steps.length) :
    execute_plan_queries (steps ++ extra) = execute_plan_queries steps ∧
    (execute_plan_queries steps).length ≤ 6 := by
  constructor
  · unfold execute_plan_queries
    rw [List.take_append_of_le_length h]
  · unfold execute_plan_queries
    rw [execute_plan_queries_foldl]
    simpa using le_trans (List.length_filterMap_le _ _) (List.length_take_le 6 steps)

/-- Witness for C10: an 8-step plan issues the same queries as its first 6
steps, and never more than 6 of them. -/
theorem execute_plan_truncates_to_six_witness :
    execute_plan_queries
        ([⟨some "a"⟩, ⟨some "b"⟩, ⟨some "c"⟩, ⟨some "d"⟩, ⟨some "e"⟩, ⟨some "f"⟩] ++
         [⟨some "g"⟩, ⟨some "h"⟩]) =
      execute_plan_queries
        [⟨some "a"⟩, ⟨some "b"⟩, ⟨some "c"⟩, ⟨some "d"⟩, ⟨some "e"⟩, ⟨some "f"⟩] ∧
    (execute_plan_queries
        [⟨some "a"⟩, ⟨some "b"⟩, ⟨some "c"⟩, ⟨some "d"⟩, ⟨some "e"⟩, ⟨some "f"⟩]).length ≤ 6 :=
  execute_plan_truncates_to_six _ _ (by decide)

/-! ## Claim C9 -/

/-- C9: when the underlying `DDGS().text` call raises, `web_search` neither
propagates the error nor returns an empty list (for any positive
`max_results`): it returns `fallback_sources(query)[:max_results]`, the
hard-coded placeholder records built from the query text. -/
theorem web_search_fabricates_on_failure (query : String) (max_results : Nat)
    (h : 1 ≤ max_results) :
    web_search query max_results (.error ()) = (fallback_sources query).take max_results ∧
    web_search query max_results (.error ()) ≠ [] ∧
    (web_search query max_results (.error ())).length ≤ max_results := by
  refine ⟨rfl, ?_, List.length_take_le _ _⟩
  show (fallback_sources query).take max_results ≠ []
  intro hnil
  have hlen := congrArg List.length hnil
  rw [List.length_take] at hlen
  simp [fallback_sources] at hlen
  omega

/-- Witness for C9: the failed search for "ai" with the default
`max_results = 6` yields the two placeholders, non-empty. -/
theorem web_search_fabricates_on_failure_witness :
    web_search "ai" 6 (.error ()) = (fallback_sources "ai").take 6 ∧
    web_search "ai" 6 (.error ()) ≠ [] ∧
    (web_search "ai" 6 (.error ())).length ≤ 6 :=
  web_search_fabricates_on_failure "ai" 6 (by decide)

/-! ## Claim C8 -/

/-- C8: loading the persisted ingestion record never raises (`load_index` is
total); a missing, unreadable, or invalid-JSON record file yields the empty
map, and an ingestion sweep started on such a file behaves exactly as one
started on an empty valid record ("start fresh"). -/
theorem load_index_falls_back_to_empty :
    load_index .missing = [] ∧ load_index .unreadable = [] ∧
    load_index .invalidJson = [] ∧
    ∀ (E : Type) (split : String → List String) (emb : String → Except EmbErr E)
      (files : List FsFile) (coll : List (VecEntry E)),
      ingest_directory split emb files ⟨.missing, coll⟩ =
        ingest_directory split emb files ⟨.valid [], coll⟩ ∧
      ingest_directory split emb files ⟨.unreadable, coll⟩ =
        ingest_directory split emb files ⟨.valid [], coll⟩ ∧
      ingest_directory split emb files ⟨.invalidJson, coll⟩ =
        ingest_directory split emb files ⟨.valid [], coll⟩ :=
  ⟨rfl, rfl, rfl, fun _ _ _ _ _ => ⟨rfl, rfl, rfl⟩⟩

/-! ## Claim C7 -/

/-- C7 counterexample: a corrupt PDF that yields one extractable page before
raising produces a NON-empty block sequence — the claim's "corrupt …
file … yields an empty sequence" fails on `read_text_from_pdf`, which returns
the pages accumulated before the swallowed exception. -/
theorem corrupt_pdf_partial_blocks_counterexample :
    load_file_blocks "data/report.pdf" ⟨.pages [some "hello"] true, .error ()⟩ =
      [⟨1, "hello"⟩] ∧
    load_file_blocks "data/report.pdf" ⟨.pages [some "hello"] true, .error ()⟩ ≠ [] :=
  ⟨by decide, by decide⟩

/-- C7 (amended): an unsupported extension yields `[]`; a supported file whose
open/parse fails at once yields `[]`; and an exception raised during PDF page
iteration is swallowed — the result is exactly the blocks extracted before the
failure (so possibly non-empty), never a propagated error. -/
theorem load_file_blocks_containment (p : String) (c : FileContent) :
    (¬ strToLower (splitextExt p) ∈ SUPPORTED_EXTS → load_file_blocks p c = []) ∧
    (strToLower (splitextExt p) = ".pdf" → c.pdf = .openFail → load_file_blocks p c = []) ∧
    (strToLower (splitextExt p) = ".txt" ∨ strToLower (splitextExt p) = ".md" →
      c.txt = .error () → load_file_blocks p c = []) ∧
    (∀ l t, load_file_blocks p ⟨.pages l true, t⟩ = load_file_blocks p ⟨.pages l false, t⟩) := by
  refine ⟨?_, ?_, ?_, ?_⟩
  · intro h
    simp only [SUPPORTED_EXTS, List.mem_cons, List.not_mem_nil, or_false, not_or] at h
    simp [load_file_blocks, h.1, h.2.1, h.2.2]
  · intro hext hpdf
    simp [load_file_blocks, hext, hpdf, read_text_from_pdf]
  · rintro (hext | hext) htxt <;>
      simp [load_file_blocks, hext, htxt, read_text_from_txt, read_text_from_md]
  · intro l t
    rfl

/-- Witness for C7 (amended): a `.docx` file yields no blocks, an unreadable
`.txt` yields no blocks, a PDF failing on open yields no blocks. -/
theorem load_file_blocks_containment_witness :
    load_file_blocks "data/a.docx" ⟨.openFail, .error ()⟩ = [] ∧
    load_file_blocks "data/a.txt" ⟨.openFail, .error ()⟩ = [] ∧
    load_file_blocks "data/a.pdf" ⟨.openFail, .ok "x"⟩ = [] ∧
    load_file_blocks "data/a.pdf" ⟨.pages [some "x"] true, .error ()⟩ =
      load_file_blocks "data/a.pdf" ⟨.pages [some "x"] false, .error ()⟩ :=
  ⟨(load_file_blocks_containment "data/a.docx" _).1 (by decide),
   (load_file_blocks_containment "data/a.txt" _).2.2.1 (by decide) rfl,
   (load_file_blocks_containment "data/a.pdf" _).2.1 (by decide) rfl,
   (load_file_blocks_containment "data/a.pdf" ⟨.pages [some "x"] true, .error ()⟩).2.2.2 _ _⟩

/-! ## Claim C5 -/

/-- C5: the chunk id `f"{fp}_{page}_{chunk_index}"` is a deterministic function
of the fingerprint inputs (file path, mtime, size) and of (page, chunk index):
re-ingestion with the content-affecting fields unchanged reproduces the id,
and whenever a change to those fields changes the SHA-256 fingerprint, the id
at the same (page, chunk index) changes too. -/
theorem chunk_id_stable_and_sensitive (p p' : String) (m m' s s' page idx : Nat) :
    (p = p' → m = m' → s = s' →
      chunkId (file_fingerprint p m s) page idx =
        chunkId (file_fingerprint p' m' s') page idx) ∧
    (file_fingerprint p m s ≠ file_fingerprint p' m' s' →
      chunkId (file_fingerprint p m s) page idx ≠
        chunkId (file_fingerprint p' m' s') page idx) := by
  constructor
  · rintro rfl rfl rfl
    rfl
  · intro hfp hid
    apply hfp
    have hdata := congrArg String.data hid
    simp only [chunkId, str_data_append, List.append_assoc] at hdata
    have hcancel := List.append_cancel_right hdata
    exact congrArg String.mk hcancel

/-- Witness for C5: the same stat data reproduces the id; bumping the mtime
changes the fingerprint, hence the id at the same (page, chunk index). -/
theorem chunk_id_stable_and_sensitive_witness :
    chunkId (file_fingerprint "data/a.txt" 1 5) 1 0 =
      chunkId (file_fingerprint "data/a.txt" 1 5) 1 0 ∧
    chunkId (file_fingerprint "data/a.txt" 1 5) 1 0 ≠
      chunkId (file_fingerprint "data/a.txt" 2 5) 1 0 :=
  ⟨(chunk_id_stable_and_sensitive "data/a.txt" "data/a.txt" 1 1 5 5 1 0).1 rfl rfl rfl,
   (chunk_id_stable_and_sensitive "data/a.txt" "data/a.txt" 1 2 5 5 1 0).2 (by decide)⟩

/-! ## Claim C2 -/

/-- A sample metadata record, for concrete instantiations. -/
def exampleMeta : Metadata := ⟨"d", "f.txt", "data/f.txt", 1, 0, "1Z", "p"⟩

/-- C2 (code bug): every call of `InternalVectorAgent.retrieve` raises
`TypeError`, because it passes the keyword argument `min_score` that
`ChromaVectorStore.similarity_search` does not accept; moreover the agent
module imports `MIN_SIMILARITY_THRESHOLD` from `backend.config`, which defines
no such name, and `similarity_search` itself requests exactly `top_k`
candidates from the collection — not the claimed `max(top_k × 5, 20)` — with
no similarity filtering and no score in the returned records. -/
theorem retrieve_min_score_type_error :
    (∀ (E : Type) (emb : String → Except EmbErr E)
       (collectionQuery : E → Nat → List String × List Metadata)
       (query : String) (top_k : Nat) (threshold : Int),
       retrieve emb collectionQuery query top_k threshold =
         .error .typeErrorUnexpectedKwarg) ∧
    ("MIN_SIMILARITY_THRESHOLD" ∈ internal_vector_agent_config_imports ∧
     "MIN_SIMILARITY_THRESHOLD" ∉ config_module_names) ∧
    (∃ l, similarity_search (fun _ => .ok (0 : Nat))
        (fun _ n => ((List.range n).map Nat.repr, (List.range n).map (fun _ => exampleMeta)))
        "q" 3 = .ok l ∧ l.length = 3 ∧ (3 : Nat) ≠ max (3 * 5) 20) := by
  refine ⟨fun E emb cq q k t => rfl, ⟨by decide, by decide⟩, ⟨_, rfl, ?_, by decide⟩⟩
  rfl

/-! ## Claim C6 -/

/-- C6 counterexample: the summary dict returned by `ingest_directory` has the
keys `added_docs, updated_docs, added_chunks, skipped` — not `added, updated,
skipped` — and a retrieval record has exactly the keys `text, metadata`,
with no `score`. -/
theorem summary_keys_counterexample :
    (summary_to_dict ⟨1, 2, 3, 4⟩).map Prod.fst =
      ["added_docs", "updated_docs", "added_chunks", "skipped"] ∧
    (summary_to_dict ⟨1, 2, 3, 4⟩).map Prod.fst ≠ ["added", "updated", "skipped"] ∧
    (search_result_to_dict ⟨"t", exampleMeta⟩).map Prod.fst = ["text", "metadata"] ∧
    "score" ∉ (search_result_to_dict ⟨"t", exampleMeta⟩).map Prod.fst :=
  ⟨rfl, by decide, rfl, by decide⟩

/-- C6 (amended): every summary the ingestion entry point returns carries
exactly the keys `added_docs, updated_docs, added_chunks, skipped`, and every
record a successful `similarity_search` returns carries exactly the keys
`text, metadata` (no similarity score). -/
theorem ingest_and_retrieval_shapes {E : Type} (split : String → List String)
    (emb : String → Except EmbErr E) (files : List FsFile) (st : StoreState E)
    (r : IngestSummary × StoreState E)
    (h : ingest_directory split emb files st = .ok r) :
    (summary_to_dict r.1).map Prod.fst =
      ["added_docs", "updated_docs", "added_chunks", "skipped"] ∧
    ∀ (collectionQuery : E → Nat → List String × List Metadata) (query : String)
      (top_k : Nat) (l : List SearchResult),
      similarity_search emb collectionQuery query top_k = .ok l →
      ∀ x ∈ l, (search_result_to_dict x).map Prod.fst = ["text", "metadata"] := by
  exact ⟨rfl, fun cq q k l hl x hx => rfl⟩

/-- Witness for C6 (amended): an empty-directory sweep and a one-row query. -/
theorem ingest_and_retrieval_shapes_witness :
    (summary_to_dict ((⟨0, 0, 0, 0⟩ : IngestSummary))).map Prod.fst =
      ["added_docs", "updated_docs", "added_chunks", "skipped"] ∧
    (search_result_to_dict ⟨"d", exampleMeta⟩).map Prod.fst = ["text", "metadata"] := by
  have h := ingest_and_retrieval_shapes (E := Nat) (fun s => [s]) (fun _ => .ok 0)
    [] ⟨.missing, []⟩ (⟨0, 0, 0, 0⟩, ⟨.valid [], []⟩) rfl
  exact ⟨h.1, h.2 (fun _ _ => (["d"], [exampleMeta])) "q" 3 [⟨"d", exampleMeta⟩] rfl
    ⟨"d", exampleMeta⟩ (by simp)⟩

/-! ## Index-map lemmas -/

theorem lookupIndex_insertIndex_self (m : IndexMap) (p : String) (e : IndexEntry) :
    lookupIndex (insertIndex m p e) p = some e := by
  induction m with
  | nil => simp [insertIndex, lookupIndex]
  | cons kv tl ih =>
    by_cases hk : kv.1 = p
    · simp [insertIndex, lookupIndex, hk]
    · simp [insertIndex, lookupIndex, hk, ih]

theorem lookupIndex_insertIndex_ne (m : IndexMap) (p q : String) (e : IndexEntry)
    (h : q ≠ p) : lookupIndex (insertIndex m p e) q = lookupIndex m q := by
  have hpq : ¬ p = q := fun hpq => h hpq.symm
  induction m with
  | nil => simp [insertIndex, lookupIndex, hpq]
  | cons kv tl ih =>
    by_cases hk : kv.1 = p
    · simp [insertIndex, lookupIndex, hk, hpq]
    · by_cases hq : kv.1 = q
      · simp [insertIndex, lookupIndex, hk, hq, h]
      · simp [insertIndex, lookupIndex, hk, hq, h, ih]

/-! ## Per-file sweep lemmas -/

/-- The three ways the sweep leaves a file alone on its next visit: a recorded
matching fingerprint, no loadable blocks, or no chunks. -/
def skipCond (idx : IndexMap) (split : String → List String) (f : FsFile) : Prop :=
  (∃ e, lookupIndex idx (pathOf f) = some e ∧ e.fingerprint = fpOf f) ∨
  blocksOf f = [] ∨ chunksOf split f = []

theorem ingest_file_unsupported {E : Type} (split : String → List String)
    (emb : String → Except EmbErr E) (acc : SweepAcc E) (f : FsFile)
    (hs : supportedF f = false) :
    ingest_file split emb acc f = .ok acc := by
  have hs' : SUPPORTED_EXTS.contains (strToLower (splitextExt f.name)) = false := hs
  simp only [ingest_file]
  rw [if_pos hs']

theorem ingest_file_skip {E : Type} (split : String → List String)
    (emb : String → Except EmbErr E) (acc : SweepAcc E) (f : FsFile)
    (hs : supportedF f = true) (h : skipCond acc.index split f) :
    ingest_file split emb acc f = .ok { acc with skipped := acc.skipped + 1 } := by
  unfold skipCond chunksOf blocksOf metaOf fpOf pathOf at h
  have hs' : ¬ (SUPPORTED_EXTS.contains (strToLower (splitextExt f.name)) = false) := by
    have hc : SUPPORTED_EXTS.contains (strToLower (splitextExt f.name)) = true := hs
    simp only [hc]
    simp
  simp only [ingest_file]
  rw [if_neg hs']
  by_cases hc2 : (match lookupIndex acc.index (joinPath f.root f.name) with
      | some e => e.fingerprint == file_fingerprint (joinPath f.root f.name) f.mtimeNs f.size
      | none => false) = true
  · rw [if_pos hc2]
  · rw [if_neg hc2]
    rcases h with ⟨e, hl, hfp⟩ | hb | hch
    · exfalso
      apply hc2
      rw [hl]
      simp [hfp]
    · rw [if_pos hb]
    · by_cases hb2 : load_file_blocks (joinPath f.root f.name) f.content = []
      · rw [if_pos hb2]
      · rw [if_neg hb2, if_pos hch]

theorem embed_texts_ok {E : Type} (emb : String → Except EmbErr E)
    (hemb : ∀ t, ∃ v, emb t = .ok v) (l : List String) :
    ∃ vs, embed_texts emb l = .ok vs := by
  induction l with
  | nil => exact ⟨[], rfl⟩
  | cons t tl ih =>
    obtain ⟨v, hv⟩ := hemb t
    obtain ⟨vs, hvs⟩ := ih
    exact ⟨v :: vs, by simp [embed_texts, hv, hvs]⟩

set_option maxHeartbeats 1000000 in
theorem ingest_file_ok {E : Type} (split : String → List String)
    (emb : String → Except EmbErr E) (acc : SweepAcc E) (f : FsFile)
    (hemb : ∀ t, ∃ v, emb t = .ok v) :
    ∃ acc', ingest_file split emb acc f = .ok acc' := by
  simp only [ingest_file]
  by_cases hs : SUPPORTED_EXTS.contains (strToLower (splitextExt f.name)) = false
  · exact ⟨acc, by rw [if_pos hs]⟩
  · rw [if_neg hs]
    by_cases hc2 : (match lookupIndex acc.index (joinPath f.root f.name) with
        | some e => e.fingerprint == file_fingerprint (joinPath f.root f.name) f.mtimeNs f.size
        | none => false) = true
    · exact ⟨_, by rw [if_pos hc2]⟩
    · rw [if_neg hc2]
      by_cases hb : load_file_blocks (joinPath f.root f.name) f.content = []
      · exact ⟨_, by rw [if_pos hb]⟩
      · rw [if_neg hb]
        by_cases hch : chunk_blocks split (load_file_blocks (joinPath f.root f.name) f.content)
            { doc_id := file_fingerprint (joinPath f.root f.name) f.mtimeNs f.size,
              file_name := f.name, file_path := joinPath f.root f.name,
              modified_at := isoUtc f.mtimeNs } = []
        · exact ⟨_, by rw [if_pos hch]⟩
        · rw [if_neg hch]
          obtain ⟨vs, hvs⟩ := embed_texts_ok emb hemb
            (List.map (fun ch => ch.text)
              (chunk_blocks split (load_file_blocks (joinPath f.root f.name) f.content)
                { doc_id := file_fingerprint (joinPath f.root f.name) f.mtimeNs f.size,
                  file_name := f.name, file_path := joinPath f.root f.name,
                  modified_at := isoUtc f.mtimeNs }))
          rw [hvs]
          exact ⟨_, rfl⟩

set_option maxHeartbeats 1000000 in
theorem ingest_file_preserve {E : Type} (split : String → List String)
    (emb : String → Except EmbErr E) (acc acc' : SweepAcc E) (f : FsFile) (q : String)
    (h : ingest_file split emb acc f = .ok acc') (hq : q ≠ joinPath f.root f.name) :
    lookupIndex acc'.index q = lookupIndex acc.index q := by
  simp only [ingest_file] at h
  split at h
  · injection h with h2
    rw [← h2]
  · split at h
    · injection h with h2
      rw [← h2]
    · split at h
      · injection h with h2
        rw [← h2]
      · split at h
        · injection h with h2
          rw [← h2]
        · split at h
          · exact absurd h (by simp)
          · injection h with h2
            rw [← h2]
            exact lookupIndex_insertIndex_ne _ _ _ _ hq

set_option maxHeartbeats 1000000 in
theorem ingest_file_establish {E : Type} (split : String → List String)
    (emb : String → Except EmbErr E) (acc acc' : SweepAcc E) (f : FsFile)
    (h : ingest_file split emb acc f = .ok acc') (hs : supportedF f = true) :
    skipCond acc'.index split f := by
  unfold skipCond chunksOf blocksOf metaOf fpOf pathOf
  simp only [ingest_file] at h
  split at h
  · rename_i hc1
    have hc : SUPPORTED_EXTS.contains (strToLower (splitextExt f.name)) = true := hs
    rw [hc] at hc1
    cases hc1
  · split at h
    · rename_i hc2
      injection h with h2
      rw [← h2]
      cases hl : lookupIndex acc.index (joinPath f.root f.name) with
      | none => rw [hl] at hc2; cases hc2
      | some e =>
        rw [hl] at hc2
        simp only [beq_iff_eq] at hc2
        exact Or.inl ⟨e, rfl, hc2⟩
    · split at h
      · rename_i hb
        injection h with h2
        rw [← h2]
        exact Or.inr (Or.inl hb)
      · split at h
        · rename_i hch
          injection h with h2
          exact Or.inr (Or.inr hch)
        · split at h
          · cases h
          · injection h with h2
            rw [← h2]
            exact Or.inl ⟨_, lookupIndex_insertIndex_self _ _ _, rfl⟩

theorem ingest_loop_preserve {E : Type} (split : String → List String)
    (emb : String → Except EmbErr E) (q : String) :
    ∀ (files : List FsFile) (acc acc' : SweepAcc E),
      ingest_loop split emb files acc = .ok acc' →
      q ∉ files.map (fun f => joinPath f.root f.name) →
      lookupIndex acc'.index q = lookupIndex acc.index q := by
  intro files
  induction files with
  | nil =>
    intro acc acc' h _
    simp only [ingest_loop] at h
    injection h with h2
    rw [← h2]
  | cons f rest ih =>
    intro acc acc' h hq
    simp only [ingest_loop] at h
    simp only [List.map_cons, List.mem_cons, not_or] at hq
    cases hf : ingest_file split emb acc f with
    | error e => rw [hf] at h; cases h
    | ok acc1 =>
      rw [hf] at h
      rw [ih acc1 acc' h hq.2]
      exact ingest_file_preserve split emb acc acc1 f q hf hq.1

theorem ingest_loop_establish {E : Type} (split : String → List String)
    (emb : String → Except EmbErr E) :
    ∀ (files : List FsFile) (acc acc' : SweepAcc E),
      (files.map (fun f => joinPath f.root f.name)).Nodup →
      ingest_loop split emb files acc = .ok acc' →
      ∀ f ∈ files, supportedF f = true → skipCond acc'.index split f := by
  intro files
  induction files with
  | nil =>
    intro acc acc' _ _ f hf
    simp at hf
  | cons g rest ih =>
    intro acc acc' hnd h f hf hs
    simp only [ingest_loop] at h
    cases hg : ingest_file split emb acc g with
    | error e => rw [hg] at h; cases h
    | ok acc1 =>
      rw [hg] at h
      simp only [List.map_cons, List.nodup_cons] at hnd
      rcases List.mem_cons.mp hf with rfl | hmem
      · have hsk : skipCond acc1.index split f :=
          ingest_file_establish split emb acc acc1 f hg hs
        have hpres := ingest_loop_preserve split emb (joinPath f.root f.name)
          rest acc1 acc' h hnd.1
        unfold skipCond pathOf at hsk ⊢
        rcases hsk with ⟨e, hl, hfp⟩ | hb | hch
        · exact Or.inl ⟨e, by rw [hpres]; exact hl, hfp⟩
        · exact Or.inr (Or.inl hb)
        · exact Or.inr (Or.inr hch)
      · exact ih acc1 acc' hnd.2 h f hmem hs

theorem ingest_loop_all_skip {E : Type} (split : String → List String)
    (emb : String → Except EmbErr E) :
    ∀ (files : List FsFile) (acc : SweepAcc E),
      (∀ f ∈ files, supportedF f = true → skipCond acc.index split f) →
      ingest_loop split emb files acc =
        .ok { acc with skipped := acc.skipped + countSupported files } := by
  intro files
  induction files with
  | nil =>
    intro acc _
    simp [ingest_loop, countSupported]
  | cons f rest ih =>
    intro acc h
    simp only [ingest_loop]
    by_cases hs : supportedF f = true
    · rw [ingest_file_skip split emb acc f hs (h f (by simp) hs)]
      have hcnt : countSupported (f :: rest) = countSupported rest + 1 := by
        simp [countSupported, List.filter_cons, hs]
      rw [hcnt, show acc.skipped + (countSupported rest + 1) =
        acc.skipped + 1 + countSupported rest by omega]
      exact ih { acc with skipped := acc.skipped + 1 }
        (fun g hg hgs => h g (by simp [hg]) hgs)
    · have hs' : supportedF f = false := by
        revert hs; cases supportedF f <;> simp
      rw [ingest_file_unsupported split emb acc f hs']
      have hcnt : countSupported (f :: rest) = countSupported rest := by
        simp [countSupported, List.filter_cons, hs']
      rw [hcnt]
      exact ih acc (fun g hg hgs => h g (by simp [hg]) hgs)

/-! ## Claim C4 -/

/-- C4: re-running the sweep over the same unchanged corpus immediately after a
successful run classifies every supported file as skipped (`skipped` equals the
number of walked supported files, `added`/`updated` counters and added chunks
are all zero) and returns the store state unchanged — same sidecar index, same
collection rows. `hnd` records that a directory walk yields each path once. -/
theorem ingest_directory_idempotent {E : Type} (split : String → List String)
    (emb : String → Except EmbErr E) (files : List FsFile) (st : StoreState E)
    (sum1 : IngestSummary) (st1 : StoreState E)
    (hnd : (files.map (fun f => pathOf f)).Nodup)
    (h : ingest_directory split emb files st = .ok (sum1, st1)) :
    ingest_directory split emb files st1 =
      .ok (⟨0, 0, 0, countSupported files⟩, st1) := by
  unfold ingest_directory at h ⊢
  cases hl : ingest_loop split emb files
      ⟨0, 0, 0, 0, load_index st.indexFile, st.collection⟩ with
  | error e => rw [hl] at h; cases h
  | ok acc =>
    rw [hl] at h
    injection h with h2
    have hst : st1 = ⟨save_index acc.index, acc.collection⟩ := (congrArg Prod.snd h2).symm
    have hest := ingest_loop_establish split emb files
      ⟨0, 0, 0, 0, load_index st.indexFile, st.collection⟩ acc hnd hl
    have hrun := ingest_loop_all_skip split emb files
      ⟨0, 0, 0, 0, acc.index, acc.collection⟩ hest
    rw [hst]
    dsimp only [save_index, load_index]
    rw [hrun]
    dsimp only
    rw [Nat.zero_add]

/-! ## Concrete corpus fixtures -/

/-- A one-chunk text file `data/a.txt` with stat `(mtime_ns = 1, size = 5)`. -/
def fileA : FsFile := ⟨"data", "a.txt", 1, 5, ⟨.openFail, .ok "hello"⟩⟩

/-- The same path after an edit: stat `(mtime_ns = 2, size = 5)`, new text. -/
def fileA2 : FsFile := ⟨"data", "a.txt", 2, 5, ⟨.openFail, .ok "hello world"⟩⟩

/-- A splitter whose configured chunk size exceeds the text: one part. -/
def splitOne : String → List String := fun s => [s]

/-- An embedding service that always succeeds. -/
def embOk : String → Except EmbErr Nat := fun _ => .ok 0

/-- An embedding service that always raises (e.g. the network is down). -/
def embBad : String → Except EmbErr Nat := fun _ => .error .fail

/-- Witness for C4: one ingested file; the second sweep reports
`{added_docs 0, updated_docs 0, added_chunks 0, skipped 1}` and returns the
identical store state. -/
theorem ingest_directory_idempotent_witness :
    ∃ p : IngestSummary × StoreState Nat,
      ingest_directory splitOne embOk [fileA] ⟨.missing, []⟩ = .ok p ∧
      ingest_directory splitOne embOk [fileA] p.2 =
        .ok (⟨0, 0, 0, countSupported [fileA]⟩, p.2) :=
  ⟨_, rfl, ingest_directory_idempotent splitOne embOk [fileA] ⟨.missing, []⟩ _ _
    (by decide) rfl⟩

/-! ## Claim C3 -/

/-- C3 counterexample: a corpus of one loadable file whose embedding call
raises makes the WHOLE sweep raise — `ingest_directory` returns the error
instead of a summary counting the file as skipped, because the per-file loop
(vector_store.py lines 151-210) contains no `try/except`. -/
theorem ingest_sweep_aborts_counterexample :
    ingest_directory splitOne embBad [fileA] ⟨.missing, []⟩ = .error .fail ∧
    ∀ r, ingest_directory splitOne embBad [fileA] ⟨.missing, []⟩ ≠ .ok r := by
  constructor
  · rfl
  · intro r hr
    exact Except.noConfusion
      ((show ingest_directory splitOne embBad [fileA] ⟨.missing, []⟩ =
        .error .fail from rfl).symm.trans hr)

/-- C3 (amended): failures while loading or chunking are contained (such files
are counted as skipped and the walk continues), and the only way the sweep
aborts is an embedding-call exception: whenever the embedding service returns
a value for every text, the whole sweep returns a summary. -/
theorem ingest_sweep_ok_of_embeddings_ok {E : Type} (split : String → List String)
    (emb : String → Except EmbErr E) (files : List FsFile) (st : StoreState E)
    (hemb : ∀ t, ∃ v, emb t = .ok v) :
    ∃ r, ingest_directory split emb files st = .ok r := by
  suffices hL : ∀ (fs : List FsFile) (acc : SweepAcc E),
      ∃ acc', ingest_loop split emb fs acc = .ok acc' by
    obtain ⟨acc', hacc⟩ := hL files ⟨0, 0, 0, 0, load_index st.indexFile, st.collection⟩
    exact ⟨_, by unfold ingest_directory; rw [hacc]⟩
  intro fs
  induction fs with
  | nil => intro acc; exact ⟨acc, rfl⟩
  | cons f rest ih =>
    intro acc
    obtain ⟨acc1, h1⟩ := ingest_file_ok split emb acc f hemb
    obtain ⟨acc', h2⟩ := ih acc1
    refine ⟨acc', ?_⟩
    simp only [ingest_loop]
    rw [h1]
    exact h2

/-- Witness for C3 (amended): with an always-succeeding embedding service the
one-file sweep completes. -/
theorem ingest_sweep_ok_of_embeddings_ok_witness :
    ∃ r, ingest_directory splitOne embOk [fileA] ⟨.missing, []⟩ = .ok r :=
  ingest_sweep_ok_of_embeddings_ok splitOne embOk [fileA] ⟨.missing, []⟩
    (fun _ => ⟨0, rfl⟩)

/-! ## Claim C1 -/

/-- C1 (code bug): ingest `data/a.txt`, edit it (new mtime), re-ingest. The
sweep classifies it as updated and calls `_delete_by_doc_id` first, but that
function deletes nothing (its body is a swallowed no-op, vector_store.py lines
222-235), so after the second sweep the collection still contains the chunk id
built from the PRIOR fingerprint alongside the new one — stale chunks survive
the update, violating the claimed invariant. -/
theorem stale_chunks_survive_update :
    ∃ (p1 p2 : IngestSummary × StoreState Nat),
      ingest_directory splitOne embOk [fileA] ⟨.missing, []⟩ = .ok p1 ∧
      ingest_directory splitOne embOk [fileA2] p1.2 = .ok p2 ∧
      p2.1.updated_docs = 1 ∧
      (p2.2.collection.map (fun v => v.id)).contains
        (chunkId (file_fingerprint "data/a.txt" 1 5) 1 0) = true ∧
      (p2.2.collection.map (fun v => v.id)).contains
        (chunkId (file_fingerprint "data/a.txt" 2 5) 1 0) = true :=
  ⟨_, _, rfl, rfl, rfl, by decide, by decide⟩
